import Mathlib

/-!
Verification of the business-rule core of `Buyouts_Business_Rules_Forecast.py`:
segmentation of SKUs into demand regimes, safety-stock derivation, forecast
routing with fallback, and the cap/clamp engine for forecast overrides.

Quantities and monetary-like values are embedded as rationals; a calendar month
is embedded as an integer index `12 * year + (month - 1)`; pandas `NaN` cells
are embedded as `Option` values (`none` = missing/NaN).
-/

namespace Buyouts

/-- Configuration constant `HORIZON = 20` from the script. -/
def HORIZON : Nat := 20

/-- Configuration constant `CONT_RATIO = 0.80`. -/
def CONT_RATIO : ℚ := 80 / 100

/-- Configuration constant `MIN_HITS = 4`. -/
def MIN_HITS : Nat := 4

/-- Configuration constant `CAP_MULT = 1.00`. -/
def CAP_MULT : ℚ := 1

/-- One row of the raw usage table: `SKU`, `Hist_Year`, `Hist_Period` (month
number), `Hist_Value` (quantity).  The `Description` column plays no role in
any verified rule (the data model makes it functionally dependent on `SKU`),
so it is omitted. -/
structure Row where
  sku : String
  year : Int
  month : Int
  qty : ℚ
deriving DecidableEq

/-- `Date` of a row, as a month index: `pd.to_datetime(dict(year, month, day=1))`
collapsed to `12*year + (month-1)`; adding 1 is exactly one calendar month. -/
def dateIdx (r : Row) : Int := 12 * r.year + (r.month - 1)

/-- Order used by `df.sort_values` on SKU then Date, per SKU group. -/
def dateLe (a b : Row) : Prop := dateIdx a ≤ dateIdx b

instance : DecidableRel dateLe := fun x y => Int.decLe (dateIdx x) (dateIdx y)

/-- Per-SKU chronological sort. -/
def sortByDate (l : List Row) : List Row := l.insertionSort dateLe

/-- `hist = df[df.Date <= first_run]`. -/
def histRows (raw : List Row) (first_run : Int) : List Row :=
  raw.filter (fun r => decide (dateIdx r ≤ first_run))

/-- `trail = hist[hist.Date.dt.year == 2024]`, restricted to one SKU and put in
date order (the script sorts the whole frame by SKU then Date up front, so
every per-SKU group is chronological). -/
def trailRows (raw : List Row) (first_run : Int) (s : String) : List Row :=
  sortByDate ((histRows raw first_run).filter (fun r => decide (r.sku = s ∧ r.year = 2024)))

/-- The quantity series of one SKU over the trailing (2024) window. -/
def trailQtys (raw : List Row) (first_run : Int) (s : String) : List ℚ :=
  (trailRows raw first_run s).map (·.qty)

/-- `tail = hist[(hist.Date >= first_run - 3 months) & (hist.Date <= first_run)]`,
restricted to one SKU. -/
def tailQtys (raw : List Row) (first_run : Int) (s : String) : List ℚ :=
  (sortByDate ((histRows raw first_run).filter
    (fun r => decide (r.sku = s ∧ first_run - 3 ≤ dateIdx r)))).map (·.qty)

/-- pandas `Series.median()`: middle element of the sorted sample, or the mean
of the two middle elements for an even sample size. -/
def median (l : List ℚ) : ℚ :=
  if l.length % 2 = 1 then (l.insertionSort (· ≤ ·)).getD (l.length / 2) 0
  else
    ((l.insertionSort (· ≤ ·)).getD (l.length / 2 - 1) 0 +
      (l.insertionSort (· ≤ ·)).getD (l.length / 2) 0) / 2

/-- `Series.tail(12)`: the last 12 entries. -/
def tail12 (l : List ℚ) : List ℚ := l.drop (l.length - 12)

/-- `wins_med`: `s[s>0].tail(12).median() if (s>0).any() else 0`, i.e. the
median of the last 12 nonzero trailing observations, 0 when there are none.
Total over all SKUs, matching `wins_med.get(sku, 0)` (a SKU with no trailing
rows yields 0). -/
def posFilter (l : List ℚ) : List ℚ := l.filter (fun q => decide (0 < q))

def wins_med (raw : List Row) (first_run : Int) (s : String) : ℚ :=
  if (posFilter (trailQtys raw first_run s)).isEmpty then 0
  else median (tail12 (posFilter (trailQtys raw first_run s)))

/-- Largest quantity of a series (the max aggregation of Qty); 0 for an empty series
(such a stats row does not exist in the script, the value is a dummy). -/
def maxQ : List ℚ → ℚ
  | [] => 0
  | x :: xs => xs.foldl max x

/-- Longest consecutive run of nonzero periods:
`max((len(list(g)) for v,g in itertools.groupby(arr>0) if v), default=0)`. -/
def maxRunAux : List ℚ → Nat → Nat → Nat
  | [], cur, best => max cur best
  | q :: rest, cur, best =>
      if 0 < q then maxRunAux rest (cur + 1) best
      else maxRunAux rest 0 (max cur best)

def maxRun (l : List ℚ) : Nat := maxRunAux l 0 0

/-- One row of the `stats` frame: the segmentation statistics of one SKU. -/
structure StatsRow where
  hits : Nat
  periods : Nat
  median_qty : ℚ
  max_qty : ℚ
  total_qty : ℚ
  hit_ratio : ℚ
  adi : ℚ
  max_run : Nat
  last3_tail : Bool
deriving DecidableEq

/-- Builds the `stats` row of one SKU from its trailing-window series `l` and
its 3-month tail-window series `tl`, following the aggregation block of the
script (`hits`, `periods`, `median_qty`, `max_qty`, `total_qty`, `hit_ratio`,
`adi` with the zero-hits denominator replaced by 1, `max_run`, and the
`last3_tail` flag, which is False for a SKU with no rows in the tail window). -/
def mkStats (l tl : List ℚ) : StatsRow :=
  { hits := (posFilter l).length
    periods := l.length
    median_qty := if (posFilter l).isEmpty then 0 else median (posFilter l)
    max_qty := maxQ l
    total_qty := l.sum
    hit_ratio := ((posFilter l).length : ℚ) / (l.length : ℚ)
    adi := (l.length : ℚ) / (if (posFilter l).length = 0 then 1 else ((posFilter l).length : ℚ))
    max_run := maxRun l
    last3_tail := !tl.isEmpty && tl.all (fun q => decide (0 < q)) }

/-- The closed set of regime labels. -/
inductive Regime
  | trueBuyOut
  | emergingBuyOut
  | highRunRate
  | seasonalBuyOut
  | spikeDriven
  | intermittentBuyOut
deriving DecidableEq

/-- `classify(r)` from the script: the ordered chain of business rules. -/
def classify (r : StatsRow) : Regime :=
  if r.hits ≤ 2 ∨ r.total_qty < 10 then .trueBuyOut
  else if r.hits < MIN_HITS ∧ r.last3_tail = true then .emergingBuyOut
  else if CONT_RATIO ≤ r.hit_ratio then .highRunRate
  else if 4 ≤ r.hits ∧ r.hits ≤ 9 ∧ r.max_qty / r.median_qty ≤ 3 ∧ r.max_run ≤ 3 then
    .seasonalBuyOut
  else if 1 ≤ r.hits ∧ r.hits ≤ 3 ∧ 3 < r.max_qty / r.median_qty then .spikeDriven
  else .intermittentBuyOut

/-- The six rules of the spec as an explicit ordered `(predicate, label)` list,
evaluated top-down with first-match-wins; the last rule is the catch-all. -/
def ruleTable : List ((StatsRow → Bool) × Regime) :=
  [ (fun r => decide (r.hits ≤ 2 ∨ r.total_qty < 10), .trueBuyOut),
    (fun r => decide (r.hits < MIN_HITS) && r.last3_tail, .emergingBuyOut),
    (fun r => decide ( CONT_RATIO ≤ r.hit_ratio), .highRunRate),
    (fun r => decide (4 ≤ r.hits ∧ r.hits ≤ 9 ∧ r.max_qty / r.median_qty ≤ 3 ∧ r.max_run ≤ 3),
      .seasonalBuyOut),
    (fun r => decide (1 ≤ r.hits ∧ r.hits ≤ 3 ∧ 3 < r.max_qty / r.median_qty), .spikeDriven),
    (fun _ => true, .intermittentBuyOut) ]

/-- First-match-wins evaluation of an ordered rule list (the default for an
exhausted list is never reached: the table ends in a catch-all). -/
def firstMatch : List ((StatsRow → Bool) × Regime) → StatsRow → Regime
  | [], _ => .intermittentBuyOut
  | (p, lab) :: rest, r => if p r then lab else firstMatch rest r

/-- A SKU appears in the `stats` frame iff it has at least one trailing
(2024) row. -/
def hasTrail (raw : List Row) (first_run : Int) (s : String) : Bool :=
  !(trailRows raw first_run s).isEmpty

/-- The segmentation-statistics row of one SKU. -/
def statsOf (raw : List Row) (first_run : Int) (s : String) : StatsRow :=
  mkStats (trailQtys raw first_run s) (tailQtys raw first_run s)

/-- `cat_map`: SKU to regime.  A SKU present in history but absent from the
stats frame (no 2024 rows) defaults to True Buy-Out via the
post-merge fillna with the True Buy-Out label. -/
def cat_map (raw : List Row) (first_run : Int) (s : String) : Regime :=
  if hasTrail raw first_run s then classify (statsOf raw first_run s) else .trueBuyOut

/-- numpy/pandas `round(0)`: round half to even, as an integer. -/
def roundHE (q : ℚ) : ℤ :=
  if q - ⌊q⌋ < 1 / 2 then ⌊q⌋
  else if 1 / 2 < q - ⌊q⌋ then ⌊q⌋ + 1
  else if ⌊q⌋ % 2 = 0 then ⌊q⌋ else ⌊q⌋ + 1

/-- `.astype(int)` on a float value: truncation toward zero. -/
def pytrunc (q : ℚ) : ℤ := if 0 ≤ q then ⌊q⌋ else -⌊-q⌋

/-- Lookup in the lead-time reference table (`SKU` to `Leadtime_Days`);
left-merge semantics, `none` when the SKU is absent. -/
def ltLookup (lead : List (String × ℚ)) (s : String) : Option ℚ :=
  (lead.find? (fun p => decide (p.1 = s))).map Prod.snd

/-- `Leadtime_Months = Leadtime_Days / 30`, with the post-merge
post-merge fillna of the lead-time months with 0 for a SKU absent from the table. -/
def leadMonths (lead : List (String × ℚ)) (s : String) : ℚ :=
  match ltLookup lead s with
  | some d => d / 30
  | none => 0

/-- The base safety stock
the Median12 column times the lead-time-months column, under `round(0).astype(int)`. -/
def base_safety (raw : List Row) (lead : List (String × ℚ)) (first_run : Int) (s : String) : ℤ :=
  roundHE (wins_med raw first_run s * leadMonths lead s)

/-- One cell of `df_freq`: the number of rows of `raw` (the full file, not
truncated at the run date) with this SKU, this `Hist_Year` and a positive
quantity. -/
def freqY (raw : List Row) (s : String) (y : Int) : Nat :=
  (raw.filter (fun r => decide (r.sku = s ∧ r.year = y ∧ 0 < r.qty))).length

/-- Membership in `one_off_skus`: at most 2 hits in 2024 and none in 2025 or
2026. -/
def isOneOff (raw : List Row) (s : String) : Bool :=
  decide (freqY raw s 2024 ≤ 2 ∧ freqY raw s 2025 = 0 ∧ freqY raw s 2026 = 0)

/-- The final `Safety Stock` column of one SKU: base formula, then the
True Buy-Out ceiling `min(Safety Stock, max_qty).astype(int)`, then the
one-off zero-out (which comes last in the script and therefore overrides the
ceiling), and 0 for a SKU absent from the stats frame (`fillna(0)` after the
merge with `all_skus`). -/
def safety_stock (raw : List Row) (lead : List (String × ℚ)) (first_run : Int) (s : String) : ℤ :=
  if hasTrail raw first_run s then
    let ss0 := base_safety raw lead first_run s
    let ss1 :=
      if cat_map raw first_run s = .trueBuyOut then
        pytrunc (min (ss0 : ℚ) (statsOf raw first_run s).max_qty)
      else ss0
    if isOneOff raw s then 0 else ss1
  else 0

/-- The two exception classes relevant to `safe_forecast`: statsforecast
raising `NotImplementedError` (the only class the `except` clause catches),
and any other exception. -/
inductive FcErr
  | notImplemented
  | other
deriving DecidableEq

/-- One record of a forecast frame: `unique_id`, `ds`, value. -/
structure FcRec where
  sku : String
  ds : Int
  val : ℚ
deriving DecidableEq

/-- `pd.date_range` of `periods`, month-start frequency from first_run to last_run: `HORIZON`
consecutive month starts beginning AT `first_run` (the run month itself). -/
def periodsOf (first_run : Int) : List Int :=
  (List.range HORIZON).map (fun i : Nat => first_run + (i : Int))

/-- The constant-median fallback frame built inside the `except` branch of
`safe_forecast`: one record per requested SKU per horizon period, valued at
`wins_med.get(sku, 0)`. -/
def fallbackGrid (skus : List String) (wm : String → ℚ) (first_run : Int) : List FcRec :=
  skus.flatMap (fun s => (periodsOf first_run).map (fun d => ⟨s, d, wm s⟩))

/-- `safe_forecast(model, skus, col)`.  The statsforecast call is the injected
black-box capability `cap`: either a forecast frame or an exception.  An empty
SKU list short-circuits to an empty frame; a `NotImplementedError` is caught
and replaced by the constant-median fallback; any other exception propagates
(there is no other `except` clause). -/
def safe_forecast (cap : Except FcErr (List FcRec)) (skus : List String)
    (wm : String → ℚ) (first_run : Int) : Except FcErr (List FcRec) :=
  if skus.isEmpty then .ok []
  else
    match cap with
    | .ok recs => .ok recs
    | .error .notImplemented => .ok (fallbackGrid skus wm first_run)
    | .error .other => .error .other

/-- the unique SKU values of `hist` as a set-like list (the order of distinct SKUs does
not affect any verified property). -/
def histSkus (raw : List Row) (first_run : Int) : List String :=
  ((histRows raw first_run).map (·.sku)).dedup

/-- `ets_skus`: the High Run-Rate group. -/
def etsSkus (raw : List Row) (first_run : Int) : List String :=
  (histSkus raw first_run).filter (fun s => decide (cat_map raw first_run s = .highRunRate))

/-- `tsb_skus`: the Spike-Driven and Intermittent group. -/
def tsbSkus (raw : List Row) (first_run : Int) : List String :=
  (histSkus raw first_run).filter (fun s =>
    decide (cat_map raw first_run s = .spikeDriven ∨
            cat_map raw first_run s = .intermittentBuyOut))

/-- The left merge of a forecast frame into the grid, as a keyed
lookup on `(SKU, ds)` (the capability contract provides one record per key);
`none` is the NaN of an unmatched row. -/
def lookupFc (tbl : List FcRec) (s : String) (d : Int) : Option ℚ :=
  (tbl.find? (fun rec => decide (rec.sku = s ∧ rec.ds = d))).map (·.val)

/-- Python `min` of two float operands where `none` stands for NaN: a NaN
accumulator survives every later comparison, a NaN candidate is skipped. -/
def pymin2 : Option ℚ → Option ℚ → Option ℚ
  | none, _ => none
  | some a, none => some a
  | some a, some b => some (min a b)

/-- `Median12` of a grid row: the left merge of `wins_med` keyed on SKU
(NaN for a SKU with no trailing rows).  The subsequent `r.Median12 or 0` in
`apply_override` is the identity on this domain (NaN is truthy in Python,
0 maps to 0), so no separate step is modelled for it. -/
def med12Opt (raw : List Row) (first_run : Int) (s : String) : Option ℚ :=
  if hasTrail raw first_run s then some (wins_med raw first_run s) else none

/-- `apply_override(r)` on one grid row: 0 for True and Emerging Buy-Out;
otherwise the regime base value (ETS output, trailing median, or TSB output),
capped for non-(True, Seasonal) regimes by
`min(base, capv*CAP_MULT, last*CAP_MULT)` with `capv = 2*med12` for
Spike-Driven and `med12` otherwise.  `none` is a NaN cell. -/
def apply_override (rule : Regime) (last : ℚ) (med12 : Option ℚ)
    (ets tsb : Option ℚ) : Option ℚ :=
  match rule with
  | .trueBuyOut => some 0
  | .emergingBuyOut => some 0
  | _ =>
    let base : Option ℚ :=
      match rule with
      | .highRunRate => ets
      | .seasonalBuyOut => some last
      | _ => tsb
    if rule ≠ .trueBuyOut ∧ rule ≠ .seasonalBuyOut then
      let capv : Option ℚ := med12.map (fun m => if rule = .spikeDriven then 2 * m else m)
      pymin2 (pymin2 base (capv.map (· * CAP_MULT))) (some (last * CAP_MULT))
    else base

/-- The final `Override` cell of one (SKU, period): `apply_override` followed
by the column-level `fillna(0)`. -/
def override_val (raw : List Row) (first_run : Int) (fe ft : List FcRec)
    (s : String) (d : Int) : ℚ :=
  (apply_override (cat_map raw first_run s) (wins_med raw first_run s)
    (med12Opt raw first_run s) (lookupFc fe s d) (lookupFc ft s d)).getD 0

/-- One long-form output row of the `Overrides` data. -/
structure OutRow where
  sku : String
  ds : Int
  override : ℚ
deriving DecidableEq

/-- The long-form grid
a row per SKU of `cat_map` per date of `periods`
with its merged forecast columns collapsed into the final `Override` value. -/
def grid_rows (raw : List Row) (first_run : Int) (fe ft : List FcRec) : List OutRow :=
  (histSkus raw first_run).flatMap (fun s =>
    (periodsOf first_run).map (fun d => ⟨s, d, override_val raw first_run fe ft s d⟩))

/-- The forecast-and-override stage of the run: the two `safe_forecast` calls
(an uncaught exception in either aborts the run, in call order) followed by
the grid construction.  `capE` and `capT` are the injected statsforecast
capability results for the ETS and TSB groups. -/
def pipeline (capE capT : Except FcErr (List FcRec)) (raw : List Row)
    (first_run : Int) : Except FcErr (List OutRow) :=
  match safe_forecast capE (etsSkus raw first_run) (wins_med raw first_run) first_run with
  | .error e => .error e
  | .ok fe =>
    match safe_forecast capT (tsbSkus raw first_run) (wins_med raw first_run) first_run with
    | .error e => .error e
    | .ok ft => .ok (grid_rows raw first_run fe ft)

/-- Modelled from the spec: `last_known_actual`, "the most recent nonzero
trailing observation" of a SKU (0 if none).  The script has no such value —
its cap operand named `last` holds the trailing-12 median instead — so this
definition follows the words of the spec, for comparison. -/
def lastKnownActual (raw : List Row) (first_run : Int) (s : String) : ℚ :=
  (((trailQtys raw first_run s).filter (fun q => decide (0 < q))).getLast?).getD 0

/-! ### Shared lemmas -/

lemma median_nonneg {l : List ℚ} (h : ∀ x ∈ l, 0 ≤ x) : 0 ≤ median l := by
  have hs : ∀ x ∈ l.insertionSort (· ≤ ·), 0 ≤ x := fun x hx =>
    h x ((List.perm_insertionSort (· ≤ ·) l).subset hx)
  have hgetD : ∀ i, 0 ≤ (l.insertionSort (· ≤ ·)).getD i 0 := by
    intro i
    rw [List.getD_eq_getElem?_getD]
    rcases Nat.lt_or_ge i (l.insertionSort (· ≤ ·)).length with hi | hi
    · rw [List.getElem?_eq_getElem hi]
      exact hs _ (List.getElem_mem hi)
    · rw [List.getElem?_eq_none hi]
      exact le_refl 0
  unfold median
  split
  · exact hgetD _
  · have := hgetD (l.length / 2 - 1)
    have := hgetD (l.length / 2)
    positivity

lemma median_pos {l : List ℚ} (hne : l ≠ []) (h : ∀ x ∈ l, 0 < x) : 0 < median l := by
  have hs : ∀ x ∈ l.insertionSort (· ≤ ·), 0 < x := fun x hx =>
    h x ((List.perm_insertionSort (· ≤ ·) l).subset hx)
  have hlen : (l.insertionSort (· ≤ ·)).length = l.length :=
    List.length_insertionSort (· ≤ ·) l
  have hlpos : 0 < l.length := List.length_pos.mpr hne
  have hget : ∀ i, i < l.length → 0 < (l.insertionSort (· ≤ ·)).getD i 0 := by
    intro i hi
    have hi2 : i < (l.insertionSort (· ≤ ·)).length := by omega
    rw [List.getD_eq_getElem?_getD, List.getElem?_eq_getElem hi2]
    exact hs _ (List.getElem_mem hi2)
  unfold median
  split
  · exact hget _ (Nat.div_lt_self hlpos (by norm_num))
  · have h1 : 0 < (l.insertionSort (· ≤ ·)).getD (l.length / 2 - 1) 0 :=
      hget _ (by omega)
    have h2 : 0 < (l.insertionSort (· ≤ ·)).getD (l.length / 2) 0 :=
      hget _ (Nat.div_lt_self hlpos (by norm_num))
    positivity

lemma pos_of_mem_posFilter {l : List ℚ} {x : ℚ} (hx : x ∈ posFilter l) : 0 < x := by
  have h2 := List.of_mem_filter hx
  simpa using h2

lemma wins_med_nonneg (raw : List Row) (first_run : Int) (s : String) :
    0 ≤ wins_med raw first_run s := by
  unfold wins_med
  split
  · exact le_refl 0
  · refine median_nonneg ?_
    intro x hx
    exact le_of_lt (pos_of_mem_posFilter (List.drop_subset _ _ hx))

/-! ### C4: the classifier is total, first-match-wins over the ordered rules -/

/-- C4: the classification function is total and assigns exactly one regime
label per statistics row, and it coincides with the top-down first-match-wins
evaluation of the ordered six-rule table of the spec; in particular every row
with hits ≤ 2 or total quantity < 10 is True Buy-Out regardless of its other
statistics. -/
theorem claim_C4_classifier (r : StatsRow) :
    classify r = firstMatch ruleTable r ∧
    ((r.hits ≤ 2 ∨ r.total_qty < 10) → classify r = .trueBuyOut) := by
  constructor
  · simp only [classify, ruleTable, firstMatch, decide_eq_true_eq, Bool.and_eq_true,
      Bool.if_true_right]
    split_ifs <;> simp_all
  · intro h
    simp only [classify, if_pos h]

/-- C4 witness: a concrete sparse row (2 hits) is True Buy-Out and agrees with
the rule-table evaluation. -/
theorem claim_C4_classifier_witness :
    (classify ⟨2, 12, 6, 9, 12, 1/6, 6, 1, false⟩ =
        firstMatch ruleTable ⟨2, 12, 6, 9, 12, 1/6, 6, 1, false⟩ ∧
      (((⟨2, 12, 6, 9, 12, 1/6, 6, 1, false⟩ : StatsRow).hits ≤ 2 ∨
          (⟨2, 12, 6, 9, 12, 1/6, 6, 1, false⟩ : StatsRow).total_qty < 10) →
        classify ⟨2, 12, 6, 9, 12, 1/6, 6, 1, false⟩ = .trueBuyOut)) ∧
    classify ⟨2, 12, 6, 9, 12, 1/6, 6, 1, false⟩ = .trueBuyOut :=
  ⟨claim_C4_classifier _, (claim_C4_classifier _).2 (Or.inl (by norm_num))⟩

/-! ### C9: division guards in the statistics and the classifier -/

/-- C9: for a statistics row derived from non-negative quantities, the ADI
denominator is the hit count with zero replaced by 1 (hence never zero), and a
row whose nonzero-median is 0 has zero hits and is routed to True Buy-Out by
the first rule, before any ratio comparison against the zero median can
matter. -/
theorem claim_C9_division_guards (l tl : List ℚ) (h : ∀ q ∈ l, 0 ≤ q) :
    (mkStats l tl).adi =
      ((mkStats l tl).periods : ℚ) /
        (if (mkStats l tl).hits = 0 then 1 else ((mkStats l tl).hits : ℚ)) ∧
    (if (mkStats l tl).hits = 0 then (1 : ℚ) else ((mkStats l tl).hits : ℚ)) ≠ 0 ∧
    ((mkStats l tl).median_qty = 0 →
      (mkStats l tl).hits = 0 ∧ classify (mkStats l tl) = .trueBuyOut) := by
  refine ⟨by simp [mkStats], ?_, ?_⟩
  · split
    · norm_num
    · exact_mod_cast Nat.cast_ne_zero.mpr (by assumption)
  · intro hmed
    have hpos : posFilter l = [] := by
      by_contra hne
      have hgt : 0 < (mkStats l tl).median_qty := by
        simp only [mkStats]
        rw [if_neg (by simpa [List.isEmpty_iff] using hne)]
        exact median_pos hne (fun x hx => pos_of_mem_posFilter hx)
      rw [hmed] at hgt
      exact lt_irrefl 0 hgt
    constructor
    · simp [mkStats, hpos]
    · have hh : (mkStats l tl).hits ≤ 2 := by simp [mkStats, hpos]
      simp only [classify, if_pos (Or.inl hh)]

/-! ### Safety stock lemmas -/

lemma roundHE_nonneg {q : ℚ} (h : 0 ≤ q) : 0 ≤ roundHE q := by
  have hf : 0 ≤ ⌊q⌋ := Int.floor_nonneg.mpr h
  unfold roundHE
  split_ifs <;> omega

lemma roundHE_zero : roundHE 0 = 0 := by norm_num [roundHE]

lemma pytrunc_nonneg {q : ℚ} (h : 0 ≤ q) : 0 ≤ pytrunc q := by
  rw [pytrunc, if_pos h]
  exact Int.floor_nonneg.mpr h

lemma pytrunc_le {q : ℚ} (h : 0 ≤ q) : (pytrunc q : ℚ) ≤ q := by
  rw [pytrunc, if_pos h]
  exact Int.floor_le q

lemma leadMonths_nonneg {lead : List (String × ℚ)} (hl : ∀ p ∈ lead, 0 ≤ p.2)
    (s : String) : 0 ≤ leadMonths lead s := by
  unfold leadMonths
  split
  · rename_i d hd
    unfold ltLookup at hd
    rcases Option.map_eq_some'.mp hd with ⟨p, hp, hpd⟩
    have hmem := List.mem_of_find?_eq_some hp
    have := hl p hmem
    subst hpd
    positivity
  · exact le_refl 0

lemma base_safety_nonneg {raw : List Row} {lead : List (String × ℚ)}
    (hl : ∀ p ∈ lead, 0 ≤ p.2) (first_run : Int) (s : String) :
    0 ≤ base_safety raw lead first_run s :=
  roundHE_nonneg (mul_nonneg (wins_med_nonneg raw first_run s) (leadMonths_nonneg hl s))

lemma foldl_max_init_le (xs : List ℚ) : ∀ x : ℚ, x ≤ xs.foldl max x := by
  induction xs with
  | nil => intro x; exact le_refl x
  | cons y ys ih =>
      intro x
      calc x ≤ max x y := le_max_left x y
        _ ≤ ys.foldl max (max x y) := ih (max x y)
        _ = (y :: ys).foldl max x := rfl

lemma maxQ_nonneg {l : List ℚ} (h : ∀ x ∈ l, 0 ≤ x) : 0 ≤ maxQ l := by
  cases l with
  | nil => exact le_refl 0
  | cons x xs => exact le_trans (h x (List.mem_cons_self x xs)) (foldl_max_init_le xs x)

lemma mem_trailQtys {raw : List Row} {first_run : Int} {s : String} {q : ℚ}
    (hq : q ∈ trailQtys raw first_run s) : ∃ r ∈ raw, r.qty = q := by
  unfold trailQtys trailRows sortByDate at hq
  rcases List.mem_map.mp hq with ⟨r, hr, hrq⟩
  have hr2 := (List.perm_insertionSort dateLe _).subset hr
  have hr3 : r ∈ histRows raw first_run := List.mem_of_mem_filter hr2
  unfold histRows at hr3
  exact ⟨r, List.mem_of_mem_filter hr3, hrq⟩

lemma max_qty_nonneg {raw : List Row} (hq : ∀ r ∈ raw, 0 ≤ r.qty)
    (first_run : Int) (s : String) : 0 ≤ (statsOf raw first_run s).max_qty := by
  apply maxQ_nonneg
  intro x hx
  rcases mem_trailQtys hx with ⟨r, hr, hrx⟩
  exact hrx ▸ hq r hr

lemma trailQtys_of_not_hasTrail {raw : List Row} {first_run : Int} {s : String}
    (h : hasTrail raw first_run s = false) : trailQtys raw first_run s = [] := by
  unfold hasTrail at h
  rw [Bool.not_eq_false'] at h
  unfold trailQtys
  rw [List.isEmpty_iff.mp h]
  rfl

/-! ### C5: safety-stock invariants -/

/-- C5: given non-negative quantities and lead times, the final safety stock of
every SKU is non-negative; for a SKU classified True Buy-Out it is at most the
largest single-period trailing quantity of that SKU; and for a one-off SKU it
is exactly 0, overriding both the base formula and the True Buy-Out ceiling. -/
theorem claim_C5_safety_stock (raw : List Row) (lead : List (String × ℚ)) (first_run : Int)
    (hq : ∀ r ∈ raw, 0 ≤ r.qty) (hl : ∀ p ∈ lead, 0 ≤ p.2) (s : String) :
    0 ≤ safety_stock raw lead first_run s ∧
    (cat_map raw first_run s = .trueBuyOut →
      (safety_stock raw lead first_run s : ℚ) ≤ (statsOf raw first_run s).max_qty) ∧
    (isOneOff raw s = true → safety_stock raw lead first_run s = 0) := by
  have hmax : 0 ≤ (statsOf raw first_run s).max_qty := max_qty_nonneg hq first_run s
  have hbase : 0 ≤ base_safety raw lead first_run s := base_safety_nonneg hl first_run s
  have hmin : 0 ≤ min ((base_safety raw lead first_run s : ℤ) : ℚ) (statsOf raw first_run s).max_qty :=
    le_min (by exact_mod_cast hbase) hmax
  unfold safety_stock
  by_cases ht : hasTrail raw first_run s = true
  · rw [if_pos ht]
    by_cases hoo : isOneOff raw s = true
    · rw [if_pos hoo]
      refine ⟨le_refl 0, fun _ => ?_, fun _ => rfl⟩
      exact_mod_cast hmax
    · rw [if_neg hoo]
      by_cases hrule : cat_map raw first_run s = .trueBuyOut
      · rw [if_pos hrule]
        refine ⟨pytrunc_nonneg hmin, fun _ => ?_, fun h0 => absurd h0 hoo⟩
        calc ((pytrunc (min ((base_safety raw lead first_run s : ℤ) : ℚ)
                (statsOf raw first_run s).max_qty) : ℤ) : ℚ)
            ≤ min ((base_safety raw lead first_run s : ℤ) : ℚ)
                (statsOf raw first_run s).max_qty := pytrunc_le hmin
          _ ≤ (statsOf raw first_run s).max_qty := min_le_right _ _
      · rw [if_neg hrule]
        exact ⟨hbase, fun h0 => absurd h0 hrule, fun h0 => absurd h0 hoo⟩
  · rw [if_neg ht]
    refine ⟨le_refl 0, fun _ => ?_, fun _ => rfl⟩
    have h0 : trailQtys raw first_run s = [] :=
      trailQtys_of_not_hasTrail (Bool.not_eq_true _ ▸ ht)
    simp [statsOf, mkStats, h0, maxQ]

/-! ### C6: the base safety-stock formula and missing-lead-time default -/

/-- C6: the base safety stock is the half-even rounding of Median12 times
LeadTimeDays / 30, where Median12 is the median of the last 12 nonzero
trailing observations (0 when there are none); a SKU absent from the lead-time
table gets lead time 0 and hence base safety stock 0 (a defined value, not an
error). -/
theorem claim_C6_base_formula (raw : List Row) (lead : List (String × ℚ))
    (first_run : Int) (s : String) :
    base_safety raw lead first_run s =
      roundHE (wins_med raw first_run s * ((ltLookup lead s).getD 0 / 30)) ∧
    (ltLookup lead s = none → base_safety raw lead first_run s = 0) ∧
    (posFilter (trailQtys raw first_run s) = [] → wins_med raw first_run s = 0) := by
  refine ⟨?_, ?_, ?_⟩
  · unfold base_safety leadMonths
    cases h : ltLookup lead s <;> simp [h]
  · intro h
    unfold base_safety leadMonths
    rw [h]
    rw [mul_zero]
    exact roundHE_zero
  · intro h
    unfold wins_med
    rw [if_pos (List.isEmpty_iff.mpr h)]

/-! ### Pipeline structure lemmas -/

lemma pipeline_ok {capE capT : Except FcErr (List FcRec)} {raw : List Row}
    {first_run : Int} {rows : List OutRow}
    (hok : pipeline capE capT raw first_run = .ok rows) :
    ∃ fe ft, rows = grid_rows raw first_run fe ft := by
  unfold pipeline at hok
  cases hE : safe_forecast capE (etsSkus raw first_run) (wins_med raw first_run) first_run with
  | error e => rw [hE] at hok; exact absurd hok (by simp)
  | ok fe =>
      rw [hE] at hok
      cases hT : safe_forecast capT (tsbSkus raw first_run) (wins_med raw first_run) first_run with
      | error e => rw [hT] at hok; exact absurd hok (by simp)
      | ok ft =>
          rw [hT] at hok
          simp only [Except.ok.injEq] at hok
          exact ⟨fe, ft, hok.symm⟩

lemma mem_grid_rows {raw : List Row} {first_run : Int} {fe ft : List FcRec} {r : OutRow}
    (hr : r ∈ grid_rows raw first_run fe ft) :
    r.sku ∈ histSkus raw first_run ∧ r.ds ∈ periodsOf first_run ∧
      r.override = override_val raw first_run fe ft r.sku r.ds := by
  unfold grid_rows at hr
  rcases List.mem_flatMap.mp hr with ⟨s, hs, hr2⟩
  rcases List.mem_map.mp hr2 with ⟨d, hd, hr3⟩
  subst hr3
  exact ⟨hs, hd, rfl⟩

lemma cat_map_capped_hasTrail {raw : List Row} {first_run : Int} {s : String}
    (hc : cat_map raw first_run s = .highRunRate ∨ cat_map raw first_run s = .spikeDriven ∨
      cat_map raw first_run s = .intermittentBuyOut) :
    hasTrail raw first_run s = true := by
  by_contra h
  rw [Bool.not_eq_true] at h
  unfold cat_map at hc
  rw [h] at hc
  simp at hc

/-- The value of one capped override cell: for a capped regime the script
computes the Python three-way minimum of the base, the capped median and the
`last` operand, all of which this lemma bounds. -/
lemma override_val_capped_le {raw : List Row} {first_run : Int} {fe ft : List FcRec}
    {s : String} (d : Int)
    (hc : cat_map raw first_run s = .highRunRate ∨ cat_map raw first_run s = .spikeDriven ∨
      cat_map raw first_run s = .intermittentBuyOut) :
    override_val raw first_run fe ft s d ≤
      wins_med raw first_run s * CAP_MULT *
        (if cat_map raw first_run s = .spikeDriven then 2 else 1) ∧
    override_val raw first_run fe ft s d ≤ wins_med raw first_run s * CAP_MULT := by
  have ht : hasTrail raw first_run s = true := cat_map_capped_hasTrail hc
  have hwm : 0 ≤ wins_med raw first_run s := wins_med_nonneg raw first_run s
  have hcap : (0 : ℚ) < CAP_MULT := by norm_num [CAP_MULT]
  unfold override_val med12Opt
  rw [if_pos ht]
  rcases hc with hc | hc | hc <;> rw [hc] <;> unfold apply_override <;>
    simp only [reduceCtorEq, ne_eq, not_false_eq_true, and_self, if_true, Option.map_some'] <;>
    [skip; skip; skip]
  · cases hets : lookupFc fe s d with
    | none =>
        simp only [pymin2, Option.getD]
        constructor <;> positivity
    | some b =>
        simp only [pymin2, Option.getD, if_neg]
        have h1 : min (min b (wins_med raw first_run s * CAP_MULT))
            (wins_med raw first_run s * CAP_MULT) ≤ wins_med raw first_run s * CAP_MULT :=
          min_le_right _ _
        refine ⟨?_, h1⟩
        simpa using h1
  · cases htsb : lookupFc ft s d with
    | none =>
        simp only [pymin2, Option.getD]
        constructor <;> positivity
    | some b =>
        simp only [pymin2, Option.getD]
        have h1 : min (min b (2 * wins_med raw first_run s * CAP_MULT))
            (wins_med raw first_run s * CAP_MULT) ≤ wins_med raw first_run s * CAP_MULT :=
          min_le_right _ _
        have h2 : min (min b (2 * wins_med raw first_run s * CAP_MULT))
            (wins_med raw first_run s * CAP_MULT) ≤ 2 * wins_med raw first_run s * CAP_MULT :=
          le_trans (min_le_left _ _) (min_le_right _ _)
        exact ⟨by linarith, h1⟩
  · cases htsb : lookupFc ft s d with
    | none =>
        simp only [pymin2, Option.getD]
        constructor <;> positivity
    | some b =>
        simp only [pymin2, Option.getD]
        have h1 : min (min b (wins_med raw first_run s * CAP_MULT))
            (wins_med raw first_run s * CAP_MULT) ≤ wins_med raw first_run s * CAP_MULT :=
          min_le_right _ _
        refine ⟨?_, h1⟩
        simpa using h1

/-! ### C1 (amended) and C10: cap bounds -/

/-- C1, amended: for every SKU in a capped regime (High Run-Rate, Spike-Driven,
Intermittent) and every future period, the final override is at most
median12 × CAP_MULT × (2 for Spike-Driven, else 1), and at most
median12 × CAP_MULT — where median12 is the trailing-12 nonzero median
(`wins_med`).  The claim as stated, with the second bound against the most
recent nonzero trailing observation, is false: the `last` operand of the cap
in the script holds `wins_med`, not the last actual. -/
theorem claim_C1_cap_bounds (capE capT : Except FcErr (List FcRec)) (raw : List Row)
    (first_run : Int) (rows : List OutRow)
    (hok : pipeline capE capT raw first_run = .ok rows) (r : OutRow) (hr : r ∈ rows)
    (hc : cat_map raw first_run r.sku = .highRunRate ∨
      cat_map raw first_run r.sku = .spikeDriven ∨
      cat_map raw first_run r.sku = .intermittentBuyOut) :
    r.override ≤ wins_med raw first_run r.sku * CAP_MULT *
      (if cat_map raw first_run r.sku = .spikeDriven then 2 else 1) ∧
    r.override ≤ wins_med raw first_run r.sku * CAP_MULT := by
  rcases pipeline_ok hok with ⟨fe, ft, hrows⟩
  subst hrows
  rcases mem_grid_rows hr with ⟨-, -, hov⟩
  rw [hov]
  exact override_val_capped_le r.ds hc

/-- C10: for every classified SKU, the `last` operand of the cap (the merged
Median12 column) equals the trailing-12 nonzero median `wins_med`, so the
final override of a capped SKU never exceeds Median12 × CAP_MULT — the doubled
Spike-Driven cap never loosens the effective bound. -/
theorem claim_C10_effective_bound (capE capT : Except FcErr (List FcRec)) (raw : List Row)
    (first_run : Int) (rows : List OutRow)
    (hok : pipeline capE capT raw first_run = .ok rows) (r : OutRow) (hr : r ∈ rows)
    (hc : cat_map raw first_run r.sku = .highRunRate ∨
      cat_map raw first_run r.sku = .spikeDriven ∨
      cat_map raw first_run r.sku = .intermittentBuyOut) :
    med12Opt raw first_run r.sku = some (wins_med raw first_run r.sku) ∧
    r.override ≤ wins_med raw first_run r.sku * CAP_MULT := by
  rcases pipeline_ok hok with ⟨fe, ft, hrows⟩
  subst hrows
  rcases mem_grid_rows hr with ⟨-, -, hov⟩
  refine ⟨?_, ?_⟩
  · unfold med12Opt
    rw [if_pos (cat_map_capped_hasTrail hc)]
  · rw [hov]
    exact (override_val_capped_le r.ds hc).2

/-! ### C3: True and Emerging Buy-Out overrides are exactly 0 -/

/-- C3: for every SKU classified True Buy-Out or Emerging Buy-Out and every
future period in the horizon, the override value is exactly 0, regardless of
the raw model forecasts. -/
theorem claim_C3_buyout_zero (capE capT : Except FcErr (List FcRec)) (raw : List Row)
    (first_run : Int) (rows : List OutRow)
    (hok : pipeline capE capT raw first_run = .ok rows) (r : OutRow) (hr : r ∈ rows)
    (hc : cat_map raw first_run r.sku = .trueBuyOut ∨
      cat_map raw first_run r.sku = .emergingBuyOut) :
    r.override = 0 := by
  rcases pipeline_ok hok with ⟨fe, ft, hrows⟩
  subst hrows
  rcases mem_grid_rows hr with ⟨-, -, hov⟩
  rw [hov]
  unfold override_val
  rcases hc with hc | hc <;> rw [hc] <;> rfl

/-! ### C2 (amended): horizon completeness -/

lemma periodsOf_length (first_run : Int) : (periodsOf first_run).length = HORIZON := by
  unfold periodsOf
  rw [List.length_map, List.length_range]

lemma filter_flatMap_eq_of_nodup (L : List String) (f : String → List OutRow)
    (hf : ∀ t r, r ∈ f t → r.sku = t) (hnd : L.Nodup) (s : String) (hs : s ∈ L) :
    (L.flatMap f).filter (fun r => decide (r.sku = s)) = f s := by
  induction L with
  | nil => cases hs
  | cons t rest ih =>
      rw [List.flatMap_cons, List.filter_append]
      rcases List.nodup_cons.mp hnd with ⟨htr, hndr⟩
      rcases List.mem_cons.mp hs with hst | hsr
      · subst hst
        have h1 : (f s).filter (fun r => decide (r.sku = s)) = f s :=
          List.filter_eq_self.mpr (fun r hr => decide_eq_true (hf s r hr))
        have h2 : (rest.flatMap f).filter (fun r => decide (r.sku = s)) = [] := by
          apply List.filter_eq_nil_iff.mpr
          intro r hr
          rcases List.mem_flatMap.mp hr with ⟨u, hu, hru⟩
          have := hf u r hru
          simp only [decide_eq_true_eq, this]
          intro h3
          exact htr (h3 ▸ hu)
        rw [h1, h2, List.append_nil]
      · have hts : t ≠ s := fun h => htr (h ▸ hsr)
        have h1 : (f t).filter (fun r => decide (r.sku = s)) = [] := by
          apply List.filter_eq_nil_iff.mpr
          intro r hr
          have := hf t r hr
          simp only [decide_eq_true_eq, this]
          exact hts
        rw [h1, ih hndr hsr, List.nil_append]

/-- C2, amended: for every SKU present in the history, a successful run
contains exactly HORIZON override rows for that SKU, whose periods form a
contiguous monthly sequence starting AT the run month `first_run` (the first
day of the run month) — not the month after the run date as the claim
states. -/
theorem claim_C2_horizon (capE capT : Except FcErr (List FcRec)) (raw : List Row)
    (first_run : Int) (rows : List OutRow)
    (hok : pipeline capE capT raw first_run = .ok rows) (s : String)
    (hs : s ∈ histSkus raw first_run) :
    ((rows.filter (fun r => decide (r.sku = s))).map (fun r => r.ds) =
      (List.range HORIZON).map (fun i : Nat => first_run + (i : Int))) ∧
    (rows.filter (fun r => decide (r.sku = s))).length = HORIZON := by
  rcases pipeline_ok hok with ⟨fe, ft, hrows⟩
  subst hrows
  have hfil : (grid_rows raw first_run fe ft).filter (fun r => decide (r.sku = s)) =
      (periodsOf first_run).map
        (fun d => ⟨s, d, override_val raw first_run fe ft s d⟩) := by
    unfold grid_rows
    exact filter_flatMap_eq_of_nodup _ _
      (fun t r hr => by rcases List.mem_map.mp hr with ⟨d, -, hrd⟩; rw [← hrd])
      (List.nodup_dedup _) s hs
  constructor
  · rw [hfil, List.map_map]
    unfold periodsOf
    rw [List.map_map]
    rfl
  · rw [hfil, List.length_map, periodsOf_length]

/-! ### C7 (amended): fallback policy of the forecast router -/

/-- C7, amended: when the forecasting capability signals NotImplementedError
for a requested model configuration, `safe_forecast` returns, for every SKU of
the affected group and every horizon period, a constant forecast equal to that
SKU trailing-12 median — only that signal is contained; any other exception
propagates past the router (see the counterexample). -/
theorem claim_C7_fallback (raw : List Row) (first_run : Int) (skus : List String)
    (h : skus ≠ []) :
    safe_forecast (.error .notImplemented) skus (wins_med raw first_run) first_run =
      .ok (fallbackGrid skus (wins_med raw first_run) first_run) ∧
    (∀ s ∈ skus, ∀ d ∈ periodsOf first_run,
      (⟨s, d, wins_med raw first_run s⟩ : FcRec) ∈
        fallbackGrid skus (wins_med raw first_run) first_run) ∧
    (∀ rec ∈ fallbackGrid skus (wins_med raw first_run) first_run,
      rec.val = wins_med raw first_run rec.sku) := by
  refine ⟨?_, ?_, ?_⟩
  · unfold safe_forecast
    rw [if_neg (by simpa [List.isEmpty_iff] using h)]
  · intro s hs d hd
    unfold fallbackGrid
    exact List.mem_flatMap.mpr ⟨s, hs, List.mem_map.mpr ⟨d, hd, rfl⟩⟩
  · intro rec hrec
    unfold fallbackGrid at hrec
    rcases List.mem_flatMap.mp hrec with ⟨s, -, hrec2⟩
    rcases List.mem_map.mp hrec2 with ⟨d, -, hrd⟩
    rw [← hrd]

/-! ### C8 (amended): no missing overrides; non-negativity given non-negative
model output -/

lemma lookupFc_val_mem {tbl : List FcRec} {s : String} {d : Int} {v : ℚ}
    (h : lookupFc tbl s d = some v) : ∃ rec ∈ tbl, rec.val = v := by
  unfold lookupFc at h
  rcases Option.map_eq_some'.mp h with ⟨rec, hrec, hrv⟩
  exact ⟨rec, List.mem_of_find?_eq_some hrec, hrv⟩

lemma safe_forecast_vals_nonneg {cap : Except FcErr (List FcRec)} {skus : List String}
    {raw : List Row} {first_run : Int} {fe : List FcRec}
    (hcap : ∀ lc, cap = .ok lc → ∀ rec ∈ lc, 0 ≤ rec.val)
    (hfe : safe_forecast cap skus (wins_med raw first_run) first_run = .ok fe) :
    ∀ rec ∈ fe, 0 ≤ rec.val := by
  unfold safe_forecast at hfe
  split at hfe
  · simp only [Except.ok.injEq] at hfe
    subst hfe
    intro rec hrec
    cases hrec
  · cases cap with
    | ok lc =>
        simp only [Except.ok.injEq] at hfe
        subst hfe
        exact hcap _ rfl
    | error e =>
        cases e with
        | notImplemented =>
            simp only [Except.ok.injEq] at hfe
            subst hfe
            intro rec hrec
            unfold fallbackGrid at hrec
            rcases List.mem_flatMap.mp hrec with ⟨s, -, hrec2⟩
            rcases List.mem_map.mp hrec2 with ⟨d, -, hrd⟩
            rw [← hrd]
            exact wins_med_nonneg raw first_run s
        | other => exact absurd hfe (by simp)

lemma pymin2_chain_nonneg {base capv : Option ℚ} {c : ℚ}
    (hb : ∀ b, base = some b → 0 ≤ b) (hcv : ∀ m, capv = some m → 0 ≤ m) (hc : 0 ≤ c) :
    0 ≤ (pymin2 (pymin2 base capv) (some c)).getD 0 := by
  cases base with
  | none => exact le_refl 0
  | some b =>
      cases capv with
      | none => exact le_min (hb b rfl) hc
      | some m => exact le_min (le_min (hb b rfl) (hcv m rfl)) hc

lemma med12_capv_nonneg (raw : List Row) (first_run : Int) (s : String) (g : ℚ → ℚ)
    (hg : ∀ m, 0 ≤ m → 0 ≤ g m) :
    ∀ m2, (med12Opt raw first_run s).map g = some m2 → 0 ≤ m2 := by
  intro m2 hm2
  rcases Option.map_eq_some'.mp hm2 with ⟨m, hm, hgm⟩
  unfold med12Opt at hm
  split at hm
  · rw [Option.some.injEq] at hm
    exact hgm ▸ hg m (hm ▸ wins_med_nonneg raw first_run s)
  · cases hm

lemma capv_mult_nonneg (raw : List Row) (first_run : Int) (s : String) (g : ℚ → ℚ)
    (hg : ∀ m, 0 ≤ m → 0 ≤ g m) :
    ∀ m2, ((med12Opt raw first_run s).map g).map (fun x => x * CAP_MULT) = some m2 →
      0 ≤ m2 := by
  intro m2 hm2
  rcases Option.map_eq_some'.mp hm2 with ⟨m1, hm1, h2⟩
  have h0 := med12_capv_nonneg raw first_run s g hg m1 hm1
  have h3 : (0 : ℚ) ≤ CAP_MULT := by norm_num [CAP_MULT]
  exact h2 ▸ mul_nonneg h0 h3

lemma override_val_nonneg {raw : List Row} {first_run : Int} {fe ft : List FcRec}
    (hfe : ∀ rec ∈ fe, 0 ≤ rec.val) (hft : ∀ rec ∈ ft, 0 ≤ rec.val)
    (s : String) (d : Int) : 0 ≤ override_val raw first_run fe ft s d := by
  have hwm : 0 ≤ wins_med raw first_run s := wins_med_nonneg raw first_run s
  have hcap : (0 : ℚ) < CAP_MULT := by norm_num [CAP_MULT]
  have hets : ∀ b, lookupFc fe s d = some b → 0 ≤ b := by
    intro b hb
    rcases lookupFc_val_mem hb with ⟨rec, hrec, hrv⟩
    exact hrv ▸ hfe rec hrec
  have htsb : ∀ b, lookupFc ft s d = some b → 0 ≤ b := by
    intro b hb
    rcases lookupFc_val_mem hb with ⟨rec, hrec, hrv⟩
    exact hrv ▸ hft rec hrec
  have hg : ∀ rule : Regime, ∀ m : ℚ, 0 ≤ m →
      0 ≤ (if rule = Regime.spikeDriven then 2 * m else m) := by
    intro rule m hm
    split <;> linarith
  unfold override_val
  cases hrule : cat_map raw first_run s <;> unfold apply_override <;>
      simp only [reduceCtorEq, ne_eq, not_false_eq_true, and_self, and_false,
        if_true, if_false]
  · exact le_refl 0
  · exact le_refl 0
  · exact pymin2_chain_nonneg hets
      (capv_mult_nonneg raw first_run s (fun m => m) (fun m hm => hm)) (by positivity)
  · exact hwm
  · exact pymin2_chain_nonneg htsb
      (capv_mult_nonneg raw first_run s (fun m => 2 * m)
        (fun m hm => by show (0 : ℚ) ≤ 2 * m; positivity))
      (by positivity)
  · exact pymin2_chain_nonneg htsb
      (capv_mult_nonneg raw first_run s (fun m => m) (fun m hm => hm)) (by positivity)

/-- C8, amended: the engine never emits a missing override (`fillna(0)` makes
the column total, and a missing model cell for a model-routed regime collapses
to override 0); and the override is never negative PROVIDED every value the
forecasting capability returns is non-negative — a negative raw model value
passes through the cap to a negative override (see the counterexample). -/
theorem claim_C8_no_missing (capE capT : Except FcErr (List FcRec)) (raw : List Row)
    (first_run : Int) (rows : List OutRow)
    (hE : ∀ lc, capE = .ok lc → ∀ rec ∈ lc, 0 ≤ rec.val)
    (hT : ∀ lc, capT = .ok lc → ∀ rec ∈ lc, 0 ≤ rec.val)
    (hok : pipeline capE capT raw first_run = .ok rows) :
    (∀ r ∈ rows, 0 ≤ r.override) ∧
    (∀ fe ft : List FcRec, ∀ s : String, ∀ d : Int,
      cat_map raw first_run s ≠ .seasonalBuyOut → lookupFc fe s d = none →
      lookupFc ft s d = none → override_val raw first_run fe ft s d = 0) := by
  constructor
  · unfold pipeline at hok
    cases hEr : safe_forecast capE (etsSkus raw first_run)
        (wins_med raw first_run) first_run with
    | error e => rw [hEr] at hok; exact absurd hok (by simp)
    | ok fe =>
        rw [hEr] at hok
        cases hTr : safe_forecast capT (tsbSkus raw first_run)
            (wins_med raw first_run) first_run with
        | error e => rw [hTr] at hok; exact absurd hok (by simp)
        | ok ft =>
            rw [hTr] at hok
            simp only [Except.ok.injEq] at hok
            subst hok
            intro r hr
            rcases mem_grid_rows hr with ⟨-, -, hov⟩
            rw [hov]
            exact override_val_nonneg (safe_forecast_vals_nonneg hE hEr)
              (safe_forecast_vals_nonneg hT hTr) r.sku r.ds
  · intro fe ft s d hns hfe hft
    unfold override_val
    cases hrule : cat_map raw first_run s <;> unfold apply_override <;>
        simp only [reduceCtorEq, ne_eq, not_false_eq_true, and_self, and_false,
          if_true, if_false]
    · rfl
    · rfl
    · rw [hfe]
      cases hm : (med12Opt raw first_run s).map
          (fun m => if Regime.highRunRate = Regime.spikeDriven then 2 * m else m) <;>
        simp [pymin2]
    · exact absurd hrule hns
    · rw [hft]
      cases hm : (med12Opt raw first_run s).map
          (fun m => if Regime.spikeDriven = Regime.spikeDriven then 2 * m else m) <;>
        simp [pymin2]
    · rw [hft]
      cases hm : (med12Opt raw first_run s).map
          (fun m => if Regime.intermittentBuyOut = Regime.spikeDriven then 2 * m else m) <;>
        simp [pymin2]

/-! ### Concrete example data

`exFR` is January 2025 as a month index (12 × 2025).  SKU A has one trailing
observation (a one-off, True Buy-Out SKU).  SKU B has three trailing
observations with full hit ratio (High Run-Rate), a trailing-12 nonzero median
of 10 and a most recent nonzero trailing observation of 1. -/

def exFR : Int := 24300

def exRawA : List Row := [⟨"A", 2024, 1, 5⟩]

def exRawB : List Row := [⟨"B", 2024, 1, 10⟩, ⟨"B", 2024, 2, 10⟩, ⟨"B", 2024, 3, 1⟩]

def exFcHigh : List FcRec := [⟨"B", 24300, 100⟩]

def exFcNeg : List FcRec := [⟨"B", 24300, -5⟩]

def exLead : List (String × ℚ) := [("A", 60)]

lemma exRawB_cat : cat_map exRawB exFR "B" = .highRunRate := by
  norm_num [cat_map, hasTrail, statsOf, classify, mkStats, posFilter, trailQtys, trailRows,
    tailQtys, histRows, sortByDate, dateIdx, dateLe, median, maxQ, maxRun, maxRunAux, tail12,
    MIN_HITS, CONT_RATIO, exRawB, exFR, List.insertionSort, List.orderedInsert]

lemma exRawB_wm : wins_med exRawB exFR "B" = 10 := by
  norm_num [wins_med, posFilter, trailQtys, trailRows, histRows, sortByDate, dateIdx, dateLe,
    median, tail12, exRawB, exFR, List.insertionSort, List.orderedInsert]

lemma exRawB_last : lastKnownActual exRawB exFR "B" = 1 := by
  norm_num [lastKnownActual, posFilter, trailQtys, trailRows, histRows, sortByDate, dateIdx,
    dateLe, exRawB, exFR, List.insertionSort, List.orderedInsert]

lemma exRawB_ets : etsSkus exRawB exFR = ["B"] := by
  unfold etsSkus
  rw [show histSkus exRawB exFR = ["B"] from rfl]
  simp [exRawB_cat]

lemma exRawB_tsb : tsbSkus exRawB exFR = [] := by
  unfold tsbSkus
  rw [show histSkus exRawB exFR = ["B"] from rfl]
  simp [exRawB_cat]

lemma exRawB_pipe (fc : List FcRec) :
    pipeline (.ok fc) (.ok []) exRawB exFR = .ok (grid_rows exRawB exFR fc []) := by
  unfold pipeline
  rw [exRawB_ets, exRawB_tsb]
  rfl

lemma exRawB_med12 : med12Opt exRawB exFR "B" = some 10 := by
  rw [med12Opt, if_pos (show hasTrail exRawB exFR "B" = true from rfl), exRawB_wm]

lemma exRawB_ov : override_val exRawB exFR exFcHigh [] "B" exFR = 10 := by
  rw [override_val, exRawB_cat, exRawB_wm, exRawB_med12]
  rw [show lookupFc exFcHigh "B" exFR = some 100 from rfl]
  rw [show lookupFc ([] : List FcRec) "B" exFR = none from rfl]
  simp only [apply_override, pymin2, reduceCtorEq, not_false_eq_true, and_self, if_true,
    if_false, Option.map_some']
  norm_num [CAP_MULT, min_def]
  rfl

lemma exRawB_ovneg : override_val exRawB exFR exFcNeg [] "B" exFR = -5 := by
  rw [override_val, exRawB_cat, exRawB_wm, exRawB_med12]
  rw [show lookupFc exFcNeg "B" exFR = some (-5) from rfl]
  rw [show lookupFc ([] : List FcRec) "B" exFR = none from rfl]
  simp only [apply_override, pymin2, reduceCtorEq, not_false_eq_true, and_self, if_true,
    if_false, Option.map_some']
  norm_num [CAP_MULT, min_def]

lemma exRawB_mem_gen (fc : List FcRec) (v : ℚ)
    (hov : override_val exRawB exFR fc [] "B" exFR = v) :
    (⟨"B", exFR, v⟩ : OutRow) ∈ grid_rows exRawB exFR fc [] := by
  unfold grid_rows
  refine List.mem_flatMap.mpr ⟨"B", ?_, ?_⟩
  · rw [show histSkus exRawB exFR = ["B"] from rfl]
    exact List.mem_singleton.mpr rfl
  · refine List.mem_map.mpr ⟨exFR, ?_, ?_⟩
    · unfold periodsOf
      exact List.mem_map.mpr ⟨0, List.mem_range.mpr (by norm_num [HORIZON]),
        by norm_num [exFR]⟩
    · rw [hov]

lemma exRawA_cat : cat_map exRawA exFR "A" = .trueBuyOut := by
  norm_num [cat_map, hasTrail, statsOf, classify, mkStats, posFilter, trailQtys, trailRows,
    tailQtys, histRows, sortByDate, dateIdx, dateLe, median, maxQ, maxRun, maxRunAux, tail12,
    MIN_HITS, CONT_RATIO, exRawA, exFR, List.insertionSort, List.orderedInsert]

lemma exRawA_ets : etsSkus exRawA exFR = [] := by
  unfold etsSkus
  rw [show histSkus exRawA exFR = ["A"] from rfl]
  simp [exRawA_cat]

lemma exRawA_tsb : tsbSkus exRawA exFR = [] := by
  unfold tsbSkus
  rw [show histSkus exRawA exFR = ["A"] from rfl]
  simp [exRawA_cat]

lemma exRawA_pipe :
    pipeline (.ok []) (.ok []) exRawA exFR = .ok (grid_rows exRawA exFR [] []) := by
  unfold pipeline
  rw [exRawA_ets, exRawA_tsb]
  rfl

lemma exRawA_ov : override_val exRawA exFR [] [] "A" exFR = 0 := by
  rw [override_val, exRawA_cat]
  rfl

lemma exRawA_mem : (⟨"A", exFR, (0 : ℚ)⟩ : OutRow) ∈ grid_rows exRawA exFR [] [] := by
  unfold grid_rows
  refine List.mem_flatMap.mpr ⟨"A", ?_, ?_⟩
  · rw [show histSkus exRawA exFR = ["A"] from rfl]
    exact List.mem_singleton.mpr rfl
  · refine List.mem_map.mpr ⟨exFR, ?_, ?_⟩
    · unfold periodsOf
      exact List.mem_map.mpr ⟨0, List.mem_range.mpr (by norm_num [HORIZON]),
        by norm_num [exFR]⟩
    · rw [exRawA_ov]

/-! ### Counterexamples -/

/-- C1 counterexample: for SKU B (High Run-Rate, a capped regime) at the first
horizon period, the run succeeds, the output override is 10, yet the most
recent nonzero trailing observation is 1 — so the claimed bound
override ≤ last_known_actual × CAP_MULT is violated (10 > 1): the `last`
operand of the cap in the code is the trailing-12 median, not the last
actual. -/
theorem claim_C1_counterexample :
    pipeline (.ok exFcHigh) (.ok []) exRawB exFR = .ok (grid_rows exRawB exFR exFcHigh []) ∧
    (⟨"B", exFR, 10⟩ : OutRow) ∈ grid_rows exRawB exFR exFcHigh [] ∧
    cat_map exRawB exFR "B" = .highRunRate ∧
    lastKnownActual exRawB exFR "B" = 1 ∧
    ¬ ((⟨"B", exFR, (10 : ℚ)⟩ : OutRow).override ≤
        lastKnownActual exRawB exFR "B" * CAP_MULT) := by
  refine ⟨exRawB_pipe exFcHigh, exRawB_mem_gen exFcHigh 10 exRawB_ov, exRawB_cat,
    exRawB_last, ?_⟩
  rw [exRawB_last]
  norm_num [CAP_MULT]

/-- C2 counterexample: the horizon grid of a successful run contains a row
whose period IS the run month `first_run` itself, so the periods do not start
the month after the run date as claimed. -/
theorem claim_C2_counterexample :
    pipeline (.ok []) (.ok []) exRawA exFR = .ok (grid_rows exRawA exFR [] []) ∧
    (⟨"A", exFR, 0⟩ : OutRow) ∈ grid_rows exRawA exFR [] [] ∧
    ¬ (∀ r ∈ grid_rows exRawA exFR [] [], exFR + 1 ≤ r.ds) := by
  refine ⟨exRawA_pipe, exRawA_mem, fun hall => ?_⟩
  have h := hall _ exRawA_mem
  norm_num [exFR] at h

/-- C7 counterexample: an exception of the forecasting capability other than
NotImplementedError propagates past `safe_forecast` and aborts the pipeline —
the router does not contain every capability exception. -/
theorem claim_C7_counterexample :
    safe_forecast (.error .other) ["B"] (wins_med exRawB exFR) exFR = .error .other ∧
    pipeline (.error .other) (.ok []) exRawB exFR = .error .other := by
  constructor
  · rfl
  · unfold pipeline
    rw [exRawB_ets]
    rfl

/-- C8 counterexample: a negative raw model value (-5) for a capped SKU passes
through the cap and is reported as a negative override — negatives are not
collapsed to 0. -/
theorem claim_C8_counterexample :
    pipeline (.ok exFcNeg) (.ok []) exRawB exFR = .ok (grid_rows exRawB exFR exFcNeg []) ∧
    (⟨"B", exFR, -5⟩ : OutRow) ∈ grid_rows exRawB exFR exFcNeg [] ∧
    ¬ (0 ≤ (⟨"B", exFR, (-5 : ℚ)⟩ : OutRow).override) := by
  refine ⟨exRawB_pipe exFcNeg, exRawB_mem_gen exFcNeg (-5) exRawB_ovneg, ?_⟩
  norm_num

/-! ### Witnesses -/

/-- C1 witness: the amended cap bounds hold at the concrete run of SKU B. -/
theorem claim_C1_cap_bounds_witness :
    (pipeline (.ok exFcHigh) (.ok []) exRawB exFR = .ok (grid_rows exRawB exFR exFcHigh []) ∧
      (⟨"B", exFR, 10⟩ : OutRow) ∈ grid_rows exRawB exFR exFcHigh [] ∧
      cat_map exRawB exFR "B" = .highRunRate) ∧
    (⟨"B", exFR, (10 : ℚ)⟩ : OutRow).override ≤ wins_med exRawB exFR "B" * CAP_MULT *
      (if cat_map exRawB exFR "B" = .spikeDriven then 2 else 1) ∧
    (⟨"B", exFR, (10 : ℚ)⟩ : OutRow).override ≤ wins_med exRawB exFR "B" * CAP_MULT :=
  ⟨⟨exRawB_pipe exFcHigh, exRawB_mem_gen exFcHigh 10 exRawB_ov, exRawB_cat⟩,
    claim_C1_cap_bounds (.ok exFcHigh) (.ok []) exRawB exFR _ (exRawB_pipe exFcHigh)
      ⟨"B", exFR, 10⟩ (exRawB_mem_gen exFcHigh 10 exRawB_ov) (Or.inl exRawB_cat)⟩

/-- C10 witness: at the same concrete run, the Median12 operand is the
trailing median and the override respects the effective bound. -/
theorem claim_C10_effective_bound_witness :
    (pipeline (.ok exFcHigh) (.ok []) exRawB exFR = .ok (grid_rows exRawB exFR exFcHigh []) ∧
      (⟨"B", exFR, 10⟩ : OutRow) ∈ grid_rows exRawB exFR exFcHigh [] ∧
      cat_map exRawB exFR "B" = .highRunRate) ∧
    med12Opt exRawB exFR "B" = some (wins_med exRawB exFR "B") ∧
    (⟨"B", exFR, (10 : ℚ)⟩ : OutRow).override ≤ wins_med exRawB exFR "B" * CAP_MULT :=
  ⟨⟨exRawB_pipe exFcHigh, exRawB_mem_gen exFcHigh 10 exRawB_ov, exRawB_cat⟩,
    claim_C10_effective_bound (.ok exFcHigh) (.ok []) exRawB exFR _ (exRawB_pipe exFcHigh)
      ⟨"B", exFR, 10⟩ (exRawB_mem_gen exFcHigh 10 exRawB_ov) (Or.inl exRawB_cat)⟩

/-- C3 witness: the True Buy-Out SKU A has override exactly 0 at the first
horizon period of a concrete successful run. -/
theorem claim_C3_buyout_zero_witness :
    (pipeline (.ok []) (.ok []) exRawA exFR = .ok (grid_rows exRawA exFR [] []) ∧
      (⟨"A", exFR, 0⟩ : OutRow) ∈ grid_rows exRawA exFR [] [] ∧
      cat_map exRawA exFR "A" = .trueBuyOut) ∧
    (⟨"A", exFR, (0 : ℚ)⟩ : OutRow).override = 0 :=
  ⟨⟨exRawA_pipe, exRawA_mem, exRawA_cat⟩,
    claim_C3_buyout_zero (.ok []) (.ok []) exRawA exFR _ exRawA_pipe
      ⟨"A", exFR, 0⟩ exRawA_mem (Or.inl exRawA_cat)⟩

/-- C2 witness: at a concrete run, SKU A receives exactly HORIZON rows whose
periods run contiguously from the run month. -/
theorem claim_C2_horizon_witness :
    (pipeline (.ok []) (.ok []) exRawA exFR = .ok (grid_rows exRawA exFR [] []) ∧
      "A" ∈ histSkus exRawA exFR) ∧
    (((grid_rows exRawA exFR [] []).filter (fun r => decide (r.sku = "A"))).map
        (fun r => r.ds) =
      (List.range HORIZON).map (fun i : Nat => exFR + (i : Int))) ∧
    ((grid_rows exRawA exFR [] []).filter (fun r => decide (r.sku = "A"))).length =
      HORIZON :=
  by
  have hs : "A" ∈ histSkus exRawA exFR := by
    rw [show histSkus exRawA exFR = ["A"] from rfl]
    exact List.mem_singleton.mpr rfl
  exact ⟨⟨exRawA_pipe, hs⟩,
    claim_C2_horizon (.ok []) (.ok []) exRawA exFR _ exRawA_pipe "A" hs⟩

/-- C5 witness: the safety-stock invariants at the concrete one-off SKU A. -/
theorem claim_C5_safety_stock_witness :
    ((∀ r ∈ exRawA, 0 ≤ r.qty) ∧ (∀ p ∈ exLead, 0 ≤ p.2)) ∧
    (0 ≤ safety_stock exRawA exLead exFR "A" ∧
      (cat_map exRawA exFR "A" = .trueBuyOut →
        (safety_stock exRawA exLead exFR "A" : ℚ) ≤ (statsOf exRawA exFR "A").max_qty) ∧
      (isOneOff exRawA "A" = true → safety_stock exRawA exLead exFR "A" = 0)) := by
  have hq : ∀ r ∈ exRawA, 0 ≤ r.qty := by
    intro r hr
    simp only [exRawA, List.mem_singleton] at hr
    subst hr
    norm_num
  have hl : ∀ p ∈ exLead, 0 ≤ p.2 := by
    intro p hp
    simp only [exLead, List.mem_singleton] at hp
    subst hp
    norm_num
  exact ⟨⟨hq, hl⟩, claim_C5_safety_stock exRawA exLead exFR hq hl "A"⟩

/-- C6 witness: at a SKU absent from both tables the base formula holds, the
missing lead time yields base safety stock 0, and the empty nonzero history
yields Median12 of 0. -/
theorem claim_C6_base_formula_witness :
    (base_safety exRawA exLead exFR "Z" =
      roundHE (wins_med exRawA exFR "Z" * ((ltLookup exLead "Z").getD 0 / 30))) ∧
    (ltLookup exLead "Z" = none ∧ base_safety exRawA exLead exFR "Z" = 0) ∧
    (posFilter (trailQtys exRawA exFR "Z") = [] ∧ wins_med exRawA exFR "Z" = 0) := by
  have hnone : ltLookup exLead "Z" = none := by rfl
  have hempty : posFilter (trailQtys exRawA exFR "Z") = [] := by rfl
  exact ⟨(claim_C6_base_formula exRawA exLead exFR "Z").1,
    ⟨hnone, (claim_C6_base_formula exRawA exLead exFR "Z").2.1 hnone⟩,
    ⟨hempty, (claim_C6_base_formula exRawA exLead exFR "Z").2.2 hempty⟩⟩

/-- C7 witness: the fallback contract at a concrete nonempty SKU group. -/
theorem claim_C7_fallback_witness :
    (["G"] ≠ ([] : List String)) ∧
    (safe_forecast (.error .notImplemented) ["G"] (wins_med exRawA exFR) exFR =
        .ok (fallbackGrid ["G"] (wins_med exRawA exFR) exFR) ∧
      (∀ s ∈ ["G"], ∀ d ∈ periodsOf exFR,
        (⟨s, d, wins_med exRawA exFR s⟩ : FcRec) ∈
          fallbackGrid ["G"] (wins_med exRawA exFR) exFR) ∧
      (∀ rec ∈ fallbackGrid ["G"] (wins_med exRawA exFR) exFR,
        rec.val = wins_med exRawA exFR rec.sku)) :=
  ⟨by simp, claim_C7_fallback exRawA exFR ["G"] (by simp)⟩

/-- C8 witness: with a non-negative capability table, every override of the
concrete run is non-negative, and missing model cells collapse to 0. -/
theorem claim_C8_no_missing_witness :
    ((∀ lc, (Except.ok exFcHigh : Except FcErr (List FcRec)) = .ok lc →
        ∀ rec ∈ lc, 0 ≤ rec.val) ∧
      (∀ lc, (Except.ok [] : Except FcErr (List FcRec)) = .ok lc →
        ∀ rec ∈ lc, 0 ≤ rec.val) ∧
      pipeline (.ok exFcHigh) (.ok []) exRawB exFR =
        .ok (grid_rows exRawB exFR exFcHigh [])) ∧
    ((∀ r ∈ grid_rows exRawB exFR exFcHigh [], 0 ≤ r.override) ∧
      (∀ fe ft : List FcRec, ∀ s : String, ∀ d : Int,
        cat_map exRawB exFR s ≠ .seasonalBuyOut → lookupFc fe s d = none →
        lookupFc ft s d = none → override_val exRawB exFR fe ft s d = 0)) := by
  have hE : ∀ lc, (Except.ok exFcHigh : Except FcErr (List FcRec)) = .ok lc →
      ∀ rec ∈ lc, 0 ≤ rec.val := by
    intro lc hlc rec hrec
    cases hlc
    simp only [exFcHigh, List.mem_singleton] at hrec
    subst hrec
    norm_num
  have hT : ∀ lc, (Except.ok [] : Except FcErr (List FcRec)) = .ok lc →
      ∀ rec ∈ lc, 0 ≤ rec.val := by
    intro lc hlc rec hrec
    cases hlc
    cases hrec
  exact ⟨⟨hE, hT, exRawB_pipe exFcHigh⟩,
    claim_C8_no_missing (.ok exFcHigh) (.ok []) exRawB exFR _ hE hT (exRawB_pipe exFcHigh)⟩

/-- C9 witness: the division guards at a concrete one-element series. -/
theorem claim_C9_division_guards_witness :
    (∀ q ∈ [(5 : ℚ)], 0 ≤ q) ∧
    ((mkStats [(5 : ℚ)] []).adi =
      ((mkStats [(5 : ℚ)] []).periods : ℚ) /
        (if (mkStats [(5 : ℚ)] []).hits = 0 then 1 else ((mkStats [(5 : ℚ)] []).hits : ℚ)) ∧
      (if (mkStats [(5 : ℚ)] []).hits = 0 then (1 : ℚ)
        else ((mkStats [(5 : ℚ)] []).hits : ℚ)) ≠ 0 ∧
      ((mkStats [(5 : ℚ)] []).median_qty = 0 →
        (mkStats [(5 : ℚ)] []).hits = 0 ∧ classify (mkStats [(5 : ℚ)] []) = .trueBuyOut)) := by
  have hq : ∀ q ∈ [(5 : ℚ)], 0 ≤ q := by
    intro q hqm
    simp only [List.mem_singleton] at hqm
    subst hqm
    norm_num
  exact ⟨hq, claim_C9_division_guards [(5 : ℚ)] [] hq⟩

end Buyouts
